import Mathlib

/-!
# Random-intercept model (`random_intercept_model.cpp`)

A shallow embedding of the TMB template `random_intercept_model.cpp`:

* `prior_type`, the record read from an R list (`name`, `par1`, `par2`);
* `evaluate_prior_density`, the string dispatch on the family name, whose
  last branch is `exit(1)`;
* `objective_function`, the joint negative log-likelihood (JNLL).

The C++ code is a template over the numeric `Type`; the embedding is generic
over a scalar type `α` in the same way, and the routines the template takes
from `<TMB.hpp>` (`exp`, `dnorm`, `dgamma`, `dbeta`) are collected in the
record `TMB α`.  The instance `tmb : TMB ℝ` gives them their values on the
real numbers, an idealisation of `Type = double` without rounding, underflow
or overflow.  A run that stops without a value (`exit(1)`, an index outside
a vector, two arrays of different sizes) is an `Except.error`.
-/

namespace RandomInterceptModel

/-! ## Data model -/

/-- The ways an evaluation can end without returning a scalar. -/
inductive Fault where
  /-- The process ended through `exit(status)`. -/
  | exit (status : Int)
  /-- A vector was read at a position outside `0 .. size-1`. -/
  | index_out_of_range
  /-- A coefficient-wise operation met two arrays of different sizes. -/
  | size_mismatch
deriving DecidableEq, Repr

/-- The struct `prior_type<Type>`: a family name and two hyperparameters. -/
structure prior_type (α : Type) where
  name : String
  par1 : α
  par2 : α
deriving DecidableEq, Repr

/-- The R list a prior is read from: the elements "name", "par1", "par2". -/
structure prior_list (ρ : Type) where
  name : String
  par1 : ρ
  par2 : ρ
deriving DecidableEq, Repr

/-- The constructor `prior_type(SEXP x)`: the three list elements are copied
into the struct, the two numbers through `asVector<float>` (here `asFloat`).
The body has no failing path and no test on the name, so the result is
always `Except.ok`. -/
def prior_type.ofList {ρ α : Type} (asFloat : ρ → α) (x : prior_list ρ) :
    Except Fault (prior_type α) :=
  .ok { name := x.name, par1 := asFloat x.par1, par2 := asFloat x.par2 }

/-- The routines of `<TMB.hpp>` the model calls, for the numeric type `α`:
`exp` and the three scalar densities, each taking the point, two parameters
and the `give_log` flag. -/
structure TMB (α : Type) where
  exp : α → α
  dnorm : α → α → α → Bool → α
  dgamma : α → α → α → Bool → α
  dbeta : α → α → α → Bool → α

/-! ## The prior evaluator -/

/-- The function `evaluate_prior_density(prior, param, log_density)`: compares
`prior.name` with "gaussian", "gamma", "beta" in that order and calls the
matching density; any other name reaches `exit(1)`. -/
def evaluate_prior_density {α : Type} (T : TMB α) (prior : prior_type α) (param : α)
    (log_density : Bool) : Except Fault α :=
  if prior.name = "gaussian" then
    .ok (T.dnorm param prior.par1 prior.par2 log_density)
  else if prior.name = "gamma" then
    .ok (T.dgamma param prior.par1 prior.par2 log_density)
  else if prior.name = "beta" then
    .ok (T.dbeta param prior.par1 prior.par2 log_density)
  else
    .error (Fault.exit 1)

/-! ## Vector operations used by the objective -/

/-- The vectorised `dnorm(vector, scalar, scalar, int)`: the scalar density at
every entry of the first argument. -/
def dnorm_vec {α : Type} (T : TMB α) (x : List α) (mean sd : α) (give_log : Bool) : List α :=
  x.map (fun xi => T.dnorm xi mean sd give_log)

/-- The vectorised `dnorm(vector, vector, scalar, int)`: the scalar density at
matching entries of the first two arguments, which must have one size. -/
def dnorm_vec2 {α : Type} (T : TMB α) (x mean : List α) (sd : α) (give_log : Bool) :
    Except Fault (List α) :=
  if x.length = mean.length then
    .ok (List.zipWith (fun xi mi => T.dnorm xi mi sd give_log) x mean)
  else
    .error Fault.size_mismatch

/-- The lookup `v(ind)` of a `vector<Type>` by an integer vector: the entries
`v[ind[0]], v[ind[1]], ...`; a position that is negative or not below the size
of `v` is out of range. -/
def vector_index {α : Type} (v : List α) : List Int → Except Fault (List α)
  | [] => .ok []
  | i :: rest =>
    if 0 ≤ i then
      match v[i.toNat]? with
      | some a =>
        match vector_index v rest with
        | .ok as => .ok (a :: as)
        | .error e => .error e
      | none => .error Fault.index_out_of_range
    else
      .error Fault.index_out_of_range

/-- The coefficient-wise sum of two arrays, which must have one size. -/
def array_add {α : Type} [Add α] (a b : List α) : Except Fault (List α) :=
  if a.length = b.length then .ok (List.zipWith (fun u v => u + v) a b)
  else .error Fault.size_mismatch

/-! ## The objective function -/

/-- The body of `objective_function<Type>::operator()`: the data
(`y_i`, `x_i`, `group_i`), the four priors and the parameters are the
arguments, the statements follow the source in order. -/
def objective_function {α : Type} [Zero α] [Add α] [Sub α] [Mul α] (T : TMB α)
    (y_i x_i : List α) (group_i : List Int)
    (prior_alpha prior_beta prior_sigma_group prior_sigma_error : prior_type α)
    (alpha beta log_sigma_group log_sigma_error : α) (group_res : List α) :
    Except Fault α := do
  let sigma_group := T.exp log_sigma_group
  let sigma_error := T.exp log_sigma_error
  let mut jnll : α := 0
  jnll := jnll - (← evaluate_prior_density T prior_alpha alpha true)
  jnll := jnll - (← evaluate_prior_density T prior_beta beta true)
  jnll := jnll - (← evaluate_prior_density T prior_sigma_group sigma_group true)
  jnll := jnll - (dnorm_vec T group_res 0 sigma_group true).sum
  jnll := jnll - (← evaluate_prior_density T prior_sigma_error sigma_error true)
  let looked_up ← vector_index group_res group_i
  let estimates ← array_add ((x_i.map (fun xk => beta * xk)).map (fun t => alpha + t)) looked_up
  jnll := jnll - (← dnorm_vec2 T y_i estimates sigma_error true).sum
  return jnll

/-- The family names `evaluate_prior_density` has a branch for. -/
def supported (name : String) : Prop :=
  name = "gaussian" ∨ name = "gamma" ∨ name = "beta"

instance (name : String) : Decidable (supported name) :=
  inferInstanceAs (Decidable (name = "gaussian" ∨ name = "gamma" ∨ name = "beta"))

/-! ## The densities on the real numbers -/

/-- The C function `lgamma`: the logarithm of the absolute value of the gamma
function. -/
noncomputable def lgamma (x : ℝ) : ℝ := Real.log |Real.Gamma x|

/-- Modelled from the spec: `dnorm` of the TMB library (`<TMB.hpp>`, outside
this repository), "density of `value` under Normal(mean, sd)", `give_log` selecting the
log-density.  TMB computes `resid = (x - mean) / sd` and
`logans = -log(sqrt(2*M_PI)) - log(sd) - .5 * resid * resid`, and returns
`logans` when `give_log` is set and `exp(logans)` otherwise. -/
noncomputable def dnorm (x mean sd : ℝ) (give_log : Bool) : ℝ :=
  let resid := (x - mean) / sd
  let logans := -Real.log (Real.sqrt (2 * Real.pi)) - Real.log sd - 0.5 * resid * resid
  if give_log then logans else Real.exp logans

/-- Modelled from the spec: `dgamma` of the TMB library (`<TMB.hpp>`, outside
this repository), "density of `value` under Gamma", with TMB's arguments
`(y, shape, scale, give_log)`.  TMB computes
`logres = -lgamma(shape) + (shape - 1) * log(y) - y / scale - shape * log(scale)`
and returns `logres` when `give_log` is set and `exp(logres)` otherwise. -/
noncomputable def dgamma (y shape scale : ℝ) (give_log : Bool) : ℝ :=
  let logres := -lgamma shape + (shape - 1) * Real.log y - y / scale - shape * Real.log scale
  if give_log then logres else Real.exp logres

/-- Modelled from the spec: `dbeta` of the TMB library (`<TMB.hpp>`, outside
this repository), "density of `value` under Beta(alpha = par1, beta = par2)".  TMB computes
`res = exp(lgamma(shape1+shape2) - lgamma(shape1) - lgamma(shape2))
  * pow(x, shape1-1) * pow(1-x, shape2-1)`,
returns `res` when `give_log` is not set, and otherwise
`CondExpEq(x, 0, log(res), lgamma(shape1+shape2) - lgamma(shape1) - lgamma(shape2)
  + (shape1-1)*log(x) + (shape2-1)*log(1-x))`.
The real power `x ^ y` is C's `pow` for a positive base, and for a negative
base with an integer exponent. -/
noncomputable def dbeta (x shape1 shape2 : ℝ) (give_log : Bool) : ℝ :=
  let res := Real.exp (lgamma (shape1 + shape2) - lgamma shape1 - lgamma shape2)
    * x ^ (shape1 - 1) * (1 - x) ^ (shape2 - 1)
  if give_log then
    if x = 0 then Real.log res
    else lgamma (shape1 + shape2) - lgamma shape1 - lgamma shape2
      + (shape1 - 1) * Real.log x + (shape2 - 1) * Real.log (1 - x)
  else res

/-- Modelled from the spec: the routines of `<TMB.hpp>` on the real numbers, the
spec's real-valued reading of the parameters and densities.  `exp` is the real
exponential, strictly positive and finite everywhere; the `exp` of
`Type = double` returns 0 below about -745 and infinity above about 709, and
rounds in between.  Nothing stated with `tmb` speaks about that range or about
rounding. -/
noncomputable def tmb : TMB ℝ where
  exp := Real.exp
  dnorm := dnorm
  dgamma := dgamma
  dbeta := dbeta

/-! ## Lemmas on the evaluator -/

theorem evaluate_prior_density_gaussian {α : Type} (T : TMB α) (a b v : α) (l : Bool) :
    evaluate_prior_density T ⟨"gaussian", a, b⟩ v l = .ok (T.dnorm v a b l) := by
  simp [evaluate_prior_density]

theorem evaluate_prior_density_gamma {α : Type} (T : TMB α) (a b v : α) (l : Bool) :
    evaluate_prior_density T ⟨"gamma", a, b⟩ v l = .ok (T.dgamma v a b l) := by
  simp [evaluate_prior_density]

theorem evaluate_prior_density_beta {α : Type} (T : TMB α) (a b v : α) (l : Bool) :
    evaluate_prior_density T ⟨"beta", a, b⟩ v l = .ok (T.dbeta v a b l) := by
  simp [evaluate_prior_density]

theorem evaluate_prior_density_unsupported {α : Type} (T : TMB α) (p : prior_type α)
    (v : α) (l : Bool) (h : ¬ supported p.name) :
    evaluate_prior_density T p v l = .error (Fault.exit 1) := by
  unfold supported at h
  push_neg at h
  simp [evaluate_prior_density, h.1, h.2.1, h.2.2]

theorem evaluate_prior_density_supported {α : Type} (T : TMB α) (p : prior_type α)
    (v : α) (l : Bool) (h : supported p.name) :
    ∃ d, evaluate_prior_density T p v l = .ok d := by
  unfold evaluate_prior_density
  split_ifs with h1 h2 h3
  · exact ⟨_, rfl⟩
  · exact ⟨_, rfl⟩
  · exact ⟨_, rfl⟩
  · exact absurd h (by unfold supported; tauto)

/-! ## Lemmas on sums and on the objective -/

theorem sum_map_getD {α β : Type} [AddCommMonoid α] (l : List β) (f : β → α) (d : β) :
    (l.map f).sum = ∑ k ∈ Finset.range l.length, f (l.getD k d) := by
  induction l with
  | nil => simp
  | cons a l ih =>
    rw [List.map_cons, List.sum_cons, List.length_cons, Finset.sum_range_succ', ih]
    simp [add_comm]

theorem sum_zipWith_getD {α β γ : Type} [AddCommMonoid α] (g : β → γ → α) (db : β) (dc : γ) :
    ∀ (a : List β) (b : List γ), a.length = b.length →
      (List.zipWith g a b).sum = ∑ k ∈ Finset.range a.length, g (a.getD k db) (b.getD k dc) := by
  intro a
  induction a with
  | nil => intro b _; simp
  | cons x a ih =>
    intro b hb
    cases b with
    | nil => simp at hb
    | cons y b =>
      rw [List.zipWith_cons_cons, List.sum_cons, List.length_cons, Finset.sum_range_succ',
        ih b (by simpa using hb)]
      simp [add_comm]

theorem vector_index_ok {α : Type} (v : List α) (d : α) :
    ∀ ind : List Int, (∀ i ∈ ind, 0 ≤ i ∧ i < (v.length : Int)) →
      vector_index v ind = .ok (ind.map (fun i => v.getD i.toNat d)) := by
  intro ind
  induction ind with
  | nil => intro _; rfl
  | cons i rest ih =>
    intro h
    have hi := h i (List.mem_cons_self i rest)
    have hlt : i.toNat < v.length := by omega
    have hrest := ih (fun j hj => h j (List.mem_cons_of_mem i hj))
    simp [vector_index, hi.1, hrest, List.getElem?_eq_getElem hlt, List.getD_eq_getElem _ _ hlt]

theorem estimates_getD {α : Type} [CommRing α] (x_i : List α) (group_i : List Int)
    (alpha beta : α) (group_res : List α) (hxg : x_i.length = group_i.length)
    (k : Nat) (hk : k < x_i.length) :
    (List.zipWith (fun u v => u + v) ((x_i.map (fun xk => beta * xk)).map (fun t => alpha + t))
      (group_i.map (fun i => group_res.getD i.toNat 0))).getD k 0
      = alpha + beta * x_i.getD k 0 + group_res.getD (group_i.getD k 0).toNat 0 := by
  have hk2 : k < group_i.length := hxg ▸ hk
  rw [List.getD_eq_getElem _ _ (by simp [hk, hk2]), List.getD_eq_getElem _ _ hk,
    List.getD_eq_getElem _ _ hk2]
  simp

theorem objective_function_of_priors {α : Type} [CommRing α] (T : TMB α)
    (y_i x_i : List α) (group_i : List Int)
    (prior_alpha prior_beta prior_sigma_group prior_sigma_error : prior_type α)
    (alpha beta log_sigma_group log_sigma_error : α) (group_res : List α)
    (la lb lg le : α)
    (hyx : y_i.length = x_i.length) (hxg : x_i.length = group_i.length)
    (hidx : ∀ i ∈ group_i, 0 ≤ i ∧ i < (group_res.length : Int))
    (ha : evaluate_prior_density T prior_alpha alpha true = .ok la)
    (hb : evaluate_prior_density T prior_beta beta true = .ok lb)
    (hg : evaluate_prior_density T prior_sigma_group (T.exp log_sigma_group) true = .ok lg)
    (he : evaluate_prior_density T prior_sigma_error (T.exp log_sigma_error) true = .ok le) :
    objective_function T y_i x_i group_i prior_alpha prior_beta prior_sigma_group
        prior_sigma_error alpha beta log_sigma_group log_sigma_error group_res
      = .ok (-(la + lb + lg + le
          + ∑ j ∈ Finset.range group_res.length,
              T.dnorm (group_res.getD j 0) 0 (T.exp log_sigma_group) true
          + ∑ k ∈ Finset.range y_i.length,
              T.dnorm (y_i.getD k 0)
                (alpha + beta * x_i.getD k 0 + group_res.getD (group_i.getD k 0).toNat 0)
                (T.exp log_sigma_error) true)) := by
  have hlen : (List.zipWith (fun u v => u + v)
      ((x_i.map (fun xk => beta * xk)).map (fun t => alpha + t))
      (group_i.map (fun i => group_res.getD i.toNat 0))).length = y_i.length := by
    simp [hyx, hxg]
  have hsum : (List.zipWith (fun xi mi => T.dnorm xi mi (T.exp log_sigma_error) true) y_i
      (List.zipWith (fun u v => u + v)
        ((x_i.map (fun xk => beta * xk)).map (fun t => alpha + t))
        (group_i.map (fun i => group_res.getD i.toNat 0)))).sum
      = ∑ k ∈ Finset.range y_i.length,
          T.dnorm (y_i.getD k 0)
            (alpha + beta * x_i.getD k 0 + group_res.getD (group_i.getD k 0).toNat 0)
            (T.exp log_sigma_error) true := by
    rw [sum_zipWith_getD (fun xi mi => T.dnorm xi mi (T.exp log_sigma_error) true) 0 0
      y_i _ hlen.symm]
    refine Finset.sum_congr rfl (fun k hk => ?_)
    simp only [estimates_getD x_i group_i alpha beta group_res hxg k
      (hyx ▸ (Finset.mem_range.mp hk))]
  have hpen := sum_map_getD group_res
    (fun xi => T.dnorm xi 0 (T.exp log_sigma_group) true) 0
  simp only [objective_function, ha, hb, hg, he, vector_index_ok group_res 0 group_i hidx,
    array_add, dnorm_vec2, dnorm_vec, bind, Except.bind, pure, Except.pure]
  rw [if_pos (by simp [hxg])]
  simp only []
  rw [if_pos hlen.symm]
  simp only []
  rw [hsum, hpen]
  congr 1
  ring


/-! ## Lemmas on the real densities -/

theorem log_sqrt_two_pi_pos : 0 < Real.log (Real.sqrt (2 * Real.pi)) := by
  apply Real.log_pos
  rw [show (1 : ℝ) = Real.sqrt 1 by simp]
  apply Real.sqrt_lt_sqrt (by norm_num)
  linarith [Real.pi_gt_three]

theorem log_thousand_pos : 0 < Real.log 1000 := Real.log_pos (by norm_num)

theorem dbeta_raw_eq_exp_log (x shape1 shape2 : ℝ) (h0 : 0 < x) (h1 : x < 1) :
    dbeta x shape1 shape2 false = Real.exp (dbeta x shape1 shape2 true) := by
  have h1x : 0 < 1 - x := by linarith
  simp only [dbeta, if_true, if_neg h0.ne', Bool.false_eq_true, if_false]
  rw [Real.exp_add, Real.exp_add, Real.rpow_def_of_pos h0, Real.rpow_def_of_pos h1x,
    mul_comm (shape1 - 1), mul_comm (shape2 - 1)]

theorem dbeta_raw_negative : dbeta (-1) 2 2 false < 0 := by
  simp only [dbeta, Bool.false_eq_true, if_false]
  have e1 : ((2 : ℝ) - 1) = 1 := by norm_num
  have e2 : ((1 : ℝ) - (-1)) = 2 := by norm_num
  rw [e1, e2, Real.rpow_one, Real.rpow_one]
  have := Real.exp_pos (lgamma (2 + 2) - lgamma 2 - lgamma 2)
  linarith

/-- The value of the objective on scenario A (one observation `y = 0`,
`x = 0` in group 0, all parameters 0, four priors gaussian(0, 1000)), as the
code assembles it. -/
theorem scenario_A_value :
    objective_function tmb [0] [0] [0] ⟨"gaussian", 0, 1000⟩ ⟨"gaussian", 0, 1000⟩
        ⟨"gaussian", 0, 1000⟩ ⟨"gaussian", 0, 1000⟩ 0 0 0 0 [0]
      = .ok (-(dnorm 0 0 1000 true + dnorm 0 0 1000 true + dnorm 1 0 1000 true
          + dnorm 1 0 1000 true + dnorm 0 0 1 true + dnorm 0 0 1 true)) := by
  rw [objective_function_of_priors tmb [0] [0] [0] _ _ _ _ 0 0 0 0 [0]
    (dnorm 0 0 1000 true) (dnorm 0 0 1000 true) (dnorm 1 0 1000 true) (dnorm 1 0 1000 true)
    rfl rfl (by decide) (evaluate_prior_density_gaussian _ _ _ _ _)
    (evaluate_prior_density_gaussian _ _ _ _ _)
    (by rw [evaluate_prior_density_gaussian]; simp [tmb])
    (by rw [evaluate_prior_density_gaussian]; simp [tmb])]
  simp [tmb]

theorem scenario_A_closed_form :
    -(dnorm 0 0 1000 true + dnorm 0 0 1000 true + dnorm 1 0 1000 true
          + dnorm 1 0 1000 true + dnorm 0 0 1 true + dnorm 0 0 1 true)
      = 6 * Real.log (Real.sqrt (2 * Real.pi)) + 4 * Real.log 1000 + 1 / 1000000 := by
  simp only [dnorm, if_true]
  rw [Real.log_one]
  ring

theorem dnorm_standard_at_zero : dnorm 0 0 1 true = -Real.log (Real.sqrt (2 * Real.pi)) := by
  simp only [dnorm, if_true]
  rw [Real.log_one]
  ring

/-! ## The claims -/

/-- C1: on well-formed input (the three data vectors of one length, every
group index a position of `group_res`, four supported prior names) the
objective returns the negated sum of the four log-priors (the two scale
priors taken at `exp` of the log-scale), the normal log-densities of the
random effects and the normal log-densities of the observations around the
linear predictor; nothing else is added. -/
theorem objective_function_eq_negated_sum {α : Type} [CommRing α] (T : TMB α)
    (y_i x_i : List α) (group_i : List Int)
    (prior_alpha prior_beta prior_sigma_group prior_sigma_error : prior_type α)
    (alpha beta log_sigma_group log_sigma_error : α) (group_res : List α)
    (hyx : y_i.length = x_i.length) (hxg : x_i.length = group_i.length)
    (hidx : ∀ i ∈ group_i, 0 ≤ i ∧ i < (group_res.length : Int))
    (ha : supported prior_alpha.name) (hb : supported prior_beta.name)
    (hg : supported prior_sigma_group.name) (he : supported prior_sigma_error.name) :
    ∃ la lb lg le : α,
      evaluate_prior_density T prior_alpha alpha true = .ok la ∧
      evaluate_prior_density T prior_beta beta true = .ok lb ∧
      evaluate_prior_density T prior_sigma_group (T.exp log_sigma_group) true = .ok lg ∧
      evaluate_prior_density T prior_sigma_error (T.exp log_sigma_error) true = .ok le ∧
      objective_function T y_i x_i group_i prior_alpha prior_beta prior_sigma_group
          prior_sigma_error alpha beta log_sigma_group log_sigma_error group_res
        = .ok (-(la + lb + lg + le
            + ∑ j ∈ Finset.range group_res.length,
                T.dnorm (group_res.getD j 0) 0 (T.exp log_sigma_group) true
            + ∑ k ∈ Finset.range y_i.length,
                T.dnorm (y_i.getD k 0)
                  (alpha + beta * x_i.getD k 0 + group_res.getD (group_i.getD k 0).toNat 0)
                  (T.exp log_sigma_error) true)) := by
  obtain ⟨la, hla⟩ := evaluate_prior_density_supported T prior_alpha alpha true ha
  obtain ⟨lb, hlb⟩ := evaluate_prior_density_supported T prior_beta beta true hb
  obtain ⟨lg, hlg⟩ :=
    evaluate_prior_density_supported T prior_sigma_group (T.exp log_sigma_group) true hg
  obtain ⟨le, hle⟩ :=
    evaluate_prior_density_supported T prior_sigma_error (T.exp log_sigma_error) true he
  exact ⟨la, lb, lg, le, hla, hlb, hlg, hle,
    objective_function_of_priors T y_i x_i group_i _ _ _ _ alpha beta log_sigma_group
      log_sigma_error group_res la lb lg le hyx hxg hidx hla hlb hlg hle⟩

/-- C1 at two observations in two groups, with a gaussian, a gamma, a beta and a
gaussian prior: the hypotheses hold and the objective returns a value. -/
theorem objective_function_eq_negated_sum_witness :
    ∃ v : ℝ, objective_function tmb [1, 2] [3, 4] [1, 0]
      ⟨"gaussian", 0, 1⟩ ⟨"gamma", 2, 1⟩ ⟨"beta", 2, 2⟩ ⟨"gaussian", 0, 5⟩
      (1 / 2) 2 0 0 [3, -3] = .ok v :=
  let ⟨_, _, _, _, _, _, _, _, h⟩ :=
    objective_function_eq_negated_sum tmb [1, 2] [3, 4] [1, 0]
      ⟨"gaussian", 0, 1⟩ ⟨"gamma", 2, 1⟩ ⟨"beta", 2, 2⟩ ⟨"gaussian", 0, 5⟩
      (1 / 2) 2 0 0 [3, -3] rfl rfl (by decide) (by decide) (by decide) (by decide) (by decide)
  ⟨_, h⟩

/-- C2 fails on the code: the constructor accepts the name "exponential", which
is none of the three families, and returns a prior carrying it; no error is
raised at construction. -/
theorem prior_type_ofList_exponential :
    ¬ supported "exponential" ∧
    prior_type.ofList (fun r : ℝ => r) ⟨"exponential", 0, 1⟩
      = .ok ⟨"exponential", 0, 1⟩ ∧
    ∀ e, prior_type.ofList (fun r : ℝ => r) ⟨"exponential", 0, 1⟩ ≠ .error e := by
  refine ⟨by decide, rfl, ?_⟩
  intro e h
  simp [prior_type.ofList] at h

/-- C2 as amended: the constructor returns a prior for every list, the name
copied verbatim and the two numbers converted; when the name is none of the
three families the prior it returns never yields a density: every evaluation
of it ends in `exit(1)`, so it does not behave as a supported family. -/
theorem prior_type_ofList_total {ρ α : Type} (asFloat : ρ → α) (x : prior_list ρ) :
    prior_type.ofList asFloat x = .ok ⟨x.name, asFloat x.par1, asFloat x.par2⟩ ∧
    (¬ supported x.name → ∀ (T : TMB α) (v : α) (l : Bool),
      evaluate_prior_density T ⟨x.name, asFloat x.par1, asFloat x.par2⟩ v l
        = .error (Fault.exit 1)) :=
  ⟨rfl, fun h T v l => evaluate_prior_density_unsupported T _ v l h⟩

/-- C3: the evaluator returns a density exactly when the name is one of
"gaussian", "gamma", "beta"; for any other name (the comparison is exact, so
"Gaussian" is another name) it ends in `exit(1)` whatever the point and the
`log_density` flag, and returns no value. -/
theorem evaluate_prior_density_value_iff {α : Type} (T : TMB α) (p : prior_type α)
    (v : α) (l : Bool) :
    ((∃ d, evaluate_prior_density T p v l = .ok d)
        ↔ (p.name = "gaussian" ∨ p.name = "gamma" ∨ p.name = "beta")) ∧
    (¬ (p.name = "gaussian" ∨ p.name = "gamma" ∨ p.name = "beta") →
        evaluate_prior_density T p v l = .error (Fault.exit 1)) ∧
    evaluate_prior_density T ⟨"Gaussian", p.par1, p.par2⟩ v l = .error (Fault.exit 1) := by
  refine ⟨⟨?_, fun h => evaluate_prior_density_supported T p v l h⟩,
    fun h => evaluate_prior_density_unsupported T p v l h,
    evaluate_prior_density_unsupported T _ v l (show ¬ supported "Gaussian" by decide)⟩
  rintro ⟨d, hd⟩
  by_contra hn
  rw [evaluate_prior_density_unsupported T p v l hn] at hd
  cases hd

/-- C4: when one of the four priors has an unsupported name the objective ends
in `exit(1)` for every data set and parameter vector; it returns no JNLL. -/
theorem objective_function_exit_of_unsupported {α : Type} [Zero α] [Add α] [Sub α] [Mul α]
    (T : TMB α) (y_i x_i : List α) (group_i : List Int)
    (prior_alpha prior_beta prior_sigma_group prior_sigma_error : prior_type α)
    (alpha beta log_sigma_group log_sigma_error : α) (group_res : List α)
    (h : ¬ supported prior_alpha.name ∨ ¬ supported prior_beta.name ∨
      ¬ supported prior_sigma_group.name ∨ ¬ supported prior_sigma_error.name) :
    objective_function T y_i x_i group_i prior_alpha prior_beta prior_sigma_group
        prior_sigma_error alpha beta log_sigma_group log_sigma_error group_res
      = .error (Fault.exit 1) := by
  by_cases ha : supported prior_alpha.name
  · obtain ⟨la, hla⟩ := evaluate_prior_density_supported T prior_alpha alpha true ha
    by_cases hb : supported prior_beta.name
    · obtain ⟨lb, hlb⟩ := evaluate_prior_density_supported T prior_beta beta true hb
      by_cases hg : supported prior_sigma_group.name
      · obtain ⟨lg, hlg⟩ :=
          evaluate_prior_density_supported T prior_sigma_group (T.exp log_sigma_group) true hg
        have he : ¬ supported prior_sigma_error.name := by tauto
        simp only [objective_function, hla, hlb, hlg,
          evaluate_prior_density_unsupported T prior_sigma_error _ true he, bind, Except.bind]
      · simp only [objective_function, hla, hlb,
          evaluate_prior_density_unsupported T prior_sigma_group _ true hg, bind, Except.bind]
    · simp only [objective_function, hla,
        evaluate_prior_density_unsupported T prior_beta _ true hb, bind, Except.bind]
  · simp only [objective_function,
      evaluate_prior_density_unsupported T prior_alpha _ true ha, bind, Except.bind]

/-- C4 at a one-observation data set whose residual-error prior is named
"exponential": the objective ends in `exit(1)`. -/
theorem objective_function_exit_of_unsupported_witness :
    objective_function tmb [0] [0] [0]
      ⟨"gaussian", 0, 1000⟩ ⟨"gaussian", 0, 1000⟩ ⟨"gaussian", 0, 1000⟩
      ⟨"exponential", 1, 1⟩ 0 0 0 0 [0] = .error (Fault.exit 1) :=
  objective_function_exit_of_unsupported tmb [0] [0] [0]
    ⟨"gaussian", 0, 1000⟩ ⟨"gaussian", 0, 1000⟩ ⟨"gaussian", 0, 1000⟩
    ⟨"exponential", 1, 1⟩ 0 0 0 0 [0] (Or.inr (Or.inr (Or.inr (by decide))))


/-- C5: for a gaussian prior with `par2 > 0` the log-density returned at `value`
is that of Normal(mean = par1, sd = par2):
`-log(par2 * sqrt(2*pi)) - (value - par1)^2 / (2 * par2^2)`. -/
theorem evaluate_prior_density_gaussian_log (p : prior_type ℝ) (value : ℝ)
    (hname : p.name = "gaussian") (hsd : 0 < p.par2) :
    evaluate_prior_density tmb p value true
      = .ok (-Real.log (p.par2 * Real.sqrt (2 * Real.pi))
          - (value - p.par1) ^ 2 / (2 * p.par2 ^ 2)) := by
  have hs : Real.sqrt (2 * Real.pi) ≠ 0 :=
    (Real.sqrt_pos.mpr (by linarith [Real.pi_gt_three])).ne'
  simp only [evaluate_prior_density, hname, if_true, tmb, dnorm]
  rw [Real.log_mul hsd.ne' hs]
  congr 1
  field_simp
  ring

/-- C5 at the prior gaussian(1, 2) and the point 3. -/
theorem evaluate_prior_density_gaussian_log_witness :
    evaluate_prior_density tmb ⟨"gaussian", 1, 2⟩ 3 true
      = .ok (-Real.log (2 * Real.sqrt (2 * Real.pi)) - (3 - 1) ^ 2 / (2 * 2 ^ 2)) :=
  evaluate_prior_density_gaussian_log ⟨"gaussian", 1, 2⟩ 3 rfl (by norm_num)

/-- C6 fails on the beta family outside its support: for the prior beta(2, 2) at
the point -1 the raw density returned is negative, so it is not the
exponential of the log-density returned there (nor of any number). -/
theorem evaluate_prior_density_beta_raw_negative :
    ∃ r l : ℝ, evaluate_prior_density tmb ⟨"beta", 2, 2⟩ (-1) false = .ok r ∧
      evaluate_prior_density tmb ⟨"beta", 2, 2⟩ (-1) true = .ok l ∧
      r < 0 ∧ r ≠ Real.exp l :=
  ⟨dbeta (-1) 2 2 false, dbeta (-1) 2 2 true, evaluate_prior_density_beta _ _ _ _ _,
    evaluate_prior_density_beta _ _ _ _ _, dbeta_raw_negative,
    (dbeta_raw_negative.trans (Real.exp_pos _)).ne⟩

/-- C6 as amended: for a gaussian or a gamma prior at every point, and for a
beta prior at every point strictly between 0 and 1, with any `par1`, `par2`,
the raw density (`log_density = false`) is the exponential of the log-density
(`log_density = true`). -/
theorem evaluate_prior_density_raw_eq_exp_log (p : prior_type ℝ) (value : ℝ)
    (h : p.name = "gaussian" ∨ p.name = "gamma" ∨
      (p.name = "beta" ∧ 0 < value ∧ value < 1)) :
    ∃ l, evaluate_prior_density tmb p value true = .ok l ∧
      evaluate_prior_density tmb p value false = .ok (Real.exp l) := by
  rcases h with h | h | ⟨h, h0, h1⟩
  · exact ⟨dnorm value p.par1 p.par2 true, by simp [evaluate_prior_density, h, tmb],
      by simp [evaluate_prior_density, h, tmb, dnorm]⟩
  · exact ⟨dgamma value p.par1 p.par2 true, by simp [evaluate_prior_density, h, tmb],
      by simp [evaluate_prior_density, h, tmb, dgamma]⟩
  · exact ⟨dbeta value p.par1 p.par2 true, by simp [evaluate_prior_density, h, tmb],
      by simp [evaluate_prior_density, h, tmb, dbeta_raw_eq_exp_log value _ _ h0 h1]⟩

/-- C6 as amended, at the prior beta(2, 3) and the point 1/2. -/
theorem evaluate_prior_density_raw_eq_exp_log_witness :
    ∃ l, evaluate_prior_density tmb ⟨"beta", 2, 3⟩ (1 / 2) true = .ok l ∧
      evaluate_prior_density tmb ⟨"beta", 2, 3⟩ (1 / 2) false = .ok (Real.exp l) :=
  evaluate_prior_density_raw_eq_exp_log ⟨"beta", 2, 3⟩ (1 / 2)
    (Or.inr (Or.inr ⟨rfl, by norm_num, by norm_num⟩))

/-- C7: the log-density of the prior gaussian(0, 1) at 0 is `-0.5 * log(2*pi)`. -/
theorem evaluate_prior_density_standard_normal_at_zero :
    evaluate_prior_density tmb ⟨"gaussian", 0, 1⟩ 0 true
      = .ok (-0.5 * Real.log (2 * Real.pi)) := by
  rw [evaluate_prior_density_gaussian]
  simp only [tmb, dnorm]
  rw [Real.log_sqrt (by positivity)]
  simp
  ring

/-- C8: a gaussian prior with mean `mu` returns one value at `mu + d` and at
`mu - d`, for the log-density and for the raw density, whatever `par2`. -/
theorem evaluate_prior_density_gaussian_symmetric (mu par2 d : ℝ) (l : Bool) :
    ∃ v, evaluate_prior_density tmb ⟨"gaussian", mu, par2⟩ (mu + d) l = .ok v ∧
      evaluate_prior_density tmb ⟨"gaussian", mu, par2⟩ (mu - d) l = .ok v := by
  refine ⟨dnorm (mu + d) mu par2 l, evaluate_prior_density_gaussian _ _ _ _ _, ?_⟩
  rw [evaluate_prior_density_gaussian]
  simp only [tmb, dnorm]
  have : (mu - d - mu) / par2 = -((mu + d - mu) / par2) := by ring
  rw [this]
  congr 1
  cases l <;> simp

/-- C9: for a gaussian prior with `par2 > 0`, a point farther from the mean has
a strictly smaller log-density. -/
theorem evaluate_prior_density_gaussian_decreasing (p : prior_type ℝ) (v1 v2 : ℝ)
    (hname : p.name = "gaussian") (hsd : 0 < p.par2)
    (h : |v1 - p.par1| < |v2 - p.par1|) :
    ∃ d1 d2, evaluate_prior_density tmb p v1 true = .ok d1 ∧
      evaluate_prior_density tmb p v2 true = .ok d2 ∧ d2 < d1 := by
  refine ⟨dnorm v1 p.par1 p.par2 true, dnorm v2 p.par1 p.par2 true, ?_, ?_, ?_⟩
  · simp [evaluate_prior_density, hname, tmb]
  · simp [evaluate_prior_density, hname, tmb]
  · have hsq : (v1 - p.par1) ^ 2 < (v2 - p.par1) ^ 2 := sq_lt_sq.mpr h
    have hdiv : (v1 - p.par1) ^ 2 / p.par2 ^ 2 < (v2 - p.par1) ^ 2 / p.par2 ^ 2 :=
      div_lt_div_of_pos_right hsq (by positivity)
    simp only [dnorm, if_true]
    have e1 : 0.5 * ((v1 - p.par1) / p.par2) * ((v1 - p.par1) / p.par2)
        = 0.5 * ((v1 - p.par1) ^ 2 / p.par2 ^ 2) := by ring
    have e2 : 0.5 * ((v2 - p.par1) / p.par2) * ((v2 - p.par1) / p.par2)
        = 0.5 * ((v2 - p.par1) ^ 2 / p.par2 ^ 2) := by ring
    rw [e1, e2]
    linarith

/-- C9 at the prior gaussian(1, 2) and the points 0 and 4. -/
theorem evaluate_prior_density_gaussian_decreasing_witness :
    ∃ d1 d2, evaluate_prior_density tmb ⟨"gaussian", 1, 2⟩ 0 true = .ok d1 ∧
      evaluate_prior_density tmb ⟨"gaussian", 1, 2⟩ 4 true = .ok d2 ∧ d2 < d1 :=
  evaluate_prior_density_gaussian_decreasing ⟨"gaussian", 1, 2⟩ 0 4 rfl (by norm_num)
    (by norm_num [abs_of_pos])

/-- C10 fails on the code: on scenario A the JNLL returned is neither the sum of
six standard-normal log-densities at 0 (four prior terms, the random effect,
the observation) nor the negation of that sum. -/
theorem scenario_A_ne_standard_normal_sum :
    ∃ v : ℝ,
      objective_function tmb [0] [0] [0] ⟨"gaussian", 0, 1000⟩ ⟨"gaussian", 0, 1000⟩
        ⟨"gaussian", 0, 1000⟩ ⟨"gaussian", 0, 1000⟩ 0 0 0 0 [0] = .ok v ∧
      v ≠ (dnorm 0 0 1 true + dnorm 0 0 1 true + dnorm 0 0 1 true + dnorm 0 0 1 true)
            + dnorm 0 0 1 true + dnorm 0 0 1 true ∧
      v ≠ -((dnorm 0 0 1 true + dnorm 0 0 1 true + dnorm 0 0 1 true + dnorm 0 0 1 true)
            + dnorm 0 0 1 true + dnorm 0 0 1 true) := by
  refine ⟨_, scenario_A_value, ?_, ?_⟩
  · rw [scenario_A_closed_form, dnorm_standard_at_zero]
    have h1 := log_sqrt_two_pi_pos
    have h2 := log_thousand_pos
    intro h
    linarith
  · rw [scenario_A_closed_form, dnorm_standard_at_zero]
    have h2 := log_thousand_pos
    intro h
    linarith

/-- C10 as amended: on scenario A the JNLL returned is the negated sum of the
four Normal(0, 1000) log-prior terms (for `alpha` and `beta` at 0, for the two
scales at `exp 0 = 1`), the log-density of the random effect 0 under sd 1 and
the log-density of `y = 0` under Normal(0, 1); in closed form
`3 * log(2*pi) + 4 * log 1000 + 1/1000000`. -/
theorem scenario_A_jnll :
    objective_function tmb [0] [0] [0] ⟨"gaussian", 0, 1000⟩ ⟨"gaussian", 0, 1000⟩
        ⟨"gaussian", 0, 1000⟩ ⟨"gaussian", 0, 1000⟩ 0 0 0 0 [0]
      = .ok (-(dnorm 0 0 1000 true + dnorm 0 0 1000 true + dnorm 1 0 1000 true
          + dnorm 1 0 1000 true + dnorm 0 0 1 true + dnorm 0 0 1 true)) ∧
    -(dnorm 0 0 1000 true + dnorm 0 0 1000 true + dnorm 1 0 1000 true
          + dnorm 1 0 1000 true + dnorm 0 0 1 true + dnorm 0 0 1 true)
      = 3 * Real.log (2 * Real.pi) + 4 * Real.log 1000 + 1 / 1000000 := by
  refine ⟨scenario_A_value, ?_⟩
  rw [scenario_A_closed_form, Real.log_sqrt (by positivity)]
  ring


/-! ## Further lemmas on the objective -/

theorem getD_index_mem (group_i : List Int) (k : Nat) (hk : k < group_i.length) :
    group_i.getD k 0 ∈ group_i := by
  rw [List.getD_eq_getElem _ _ hk]
  exact List.getElem_mem _

theorem getD_map_sub {α : Type} [CommRing α] (group_res : List α) (c : α) (i : Nat)
    (hi : i < group_res.length) :
    (group_res.map (fun u => u - c)).getD i 0 = group_res.getD i 0 - c := by
  rw [List.getD_eq_getElem _ _ (by simpa using hi), List.getD_eq_getElem _ _ hi]
  simp

theorem estimates_ok {α : Type} [CommRing α] (x_i : List α) (group_i : List Int)
    (alpha beta : α) (group_res : List α) (hxg : x_i.length = group_i.length) :
    array_add ((x_i.map (fun xk => beta * xk)).map (fun t => alpha + t))
        (group_i.map (fun i => group_res.getD i.toNat 0))
      = .ok (List.zipWith (fun u v => u + v)
          ((x_i.map (fun xk => beta * xk)).map (fun t => alpha + t))
          (group_i.map (fun i => group_res.getD i.toNat 0))) := by
  unfold array_add
  rw [if_pos (by simp [hxg])]

theorem dnorm_vec2_ok {α : Type} (T : TMB α) (x mean : List α) (sd : α) (give_log : Bool)
    (h : x.length = mean.length) :
    dnorm_vec2 T x mean sd give_log
      = .ok (List.zipWith (fun xi mi => T.dnorm xi mi sd give_log) x mean) := by
  unfold dnorm_vec2
  rw [if_pos h]

/-- C13: under the data-model precondition (three data vectors of one length
`N`, every group index a position of `group_res`, four supported prior names)
the evaluation is total: the lookup `group_res(group_i)` succeeds with `N`
entries, the element-wise sum succeeds with `N` entries, the vectorised density
succeeds, and the objective returns a scalar, whatever the parameters. -/
theorem objective_function_total {α : Type} [CommRing α] (T : TMB α)
    (y_i x_i : List α) (group_i : List Int)
    (prior_alpha prior_beta prior_sigma_group prior_sigma_error : prior_type α)
    (alpha beta log_sigma_group log_sigma_error : α) (group_res : List α)
    (hyx : y_i.length = x_i.length) (hxg : x_i.length = group_i.length)
    (hidx : ∀ i ∈ group_i, 0 ≤ i ∧ i < (group_res.length : Int))
    (ha : supported prior_alpha.name) (hb : supported prior_beta.name)
    (hg : supported prior_sigma_group.name) (he : supported prior_sigma_error.name) :
    (∃ looked_up estimates densities,
      vector_index group_res group_i = .ok looked_up ∧ looked_up.length = y_i.length ∧
      array_add ((x_i.map (fun xk => beta * xk)).map (fun t => alpha + t)) looked_up
        = .ok estimates ∧ estimates.length = y_i.length ∧
      dnorm_vec2 T y_i estimates (T.exp log_sigma_error) true = .ok densities ∧
      densities.length = y_i.length) ∧
    ∃ jnll, objective_function T y_i x_i group_i prior_alpha prior_beta prior_sigma_group
        prior_sigma_error alpha beta log_sigma_group log_sigma_error group_res = .ok jnll := by
  obtain ⟨la, hla⟩ := evaluate_prior_density_supported T prior_alpha alpha true ha
  obtain ⟨lb, hlb⟩ := evaluate_prior_density_supported T prior_beta beta true hb
  obtain ⟨lg, hlg⟩ :=
    evaluate_prior_density_supported T prior_sigma_group (T.exp log_sigma_group) true hg
  obtain ⟨le, hle⟩ :=
    evaluate_prior_density_supported T prior_sigma_error (T.exp log_sigma_error) true he
  refine ⟨⟨_, _, _, vector_index_ok group_res 0 group_i hidx, by simp [hyx, hxg],
    estimates_ok x_i group_i alpha beta group_res hxg, by simp [hyx, hxg],
    dnorm_vec2_ok T y_i _ _ true (by simp [hyx, hxg]), by simp [hyx, hxg]⟩,
    ⟨_, objective_function_of_priors T y_i x_i group_i _ _ _ _ alpha beta log_sigma_group
      log_sigma_error group_res la lb lg le hyx hxg hidx hla hlb hlg hle⟩⟩


/-- C13 at two observations in two groups. -/
theorem objective_function_total_witness :
    ∃ jnll : ℝ, objective_function tmb [1, 2] [3, 4] [1, 0]
      ⟨"gaussian", 0, 1⟩ ⟨"gamma", 2, 1⟩ ⟨"beta", 2, 2⟩ ⟨"gaussian", 0, 5⟩
      (1 / 2) 2 0 0 [3, -3] = .ok jnll :=
  (objective_function_total tmb [1, 2] [3, 4] [1, 0]
    ⟨"gaussian", 0, 1⟩ ⟨"gamma", 2, 1⟩ ⟨"beta", 2, 2⟩ ⟨"gaussian", 0, 5⟩
    (1 / 2) 2 0 0 [3, -3] rfl rfl (by decide) (by decide) (by decide) (by decide)
    (by decide)).2

theorem log_two_lt : Real.log 2 < 3 / 4 := by
  have := Real.log_two_lt_d9
  norm_num at this ⊢
  linarith

/-- C15: for a gamma prior the evaluator hands `par1`, `par2` to `dgamma`
unchanged and in that order, for every library; with TMB's `dgamma`, whose
arguments are (shape, scale), the log-density at `value > 0` with
`par1, par2 > 0` is
`-lgamma(par1) + (par1 - 1)*log(value) - value/par2 - par1*log(par2)`.  This is
not the rate convention: for gamma(1, 2) at 1 the value differs from the
log-density of Gamma(shape = 1, rate = 2). -/
theorem evaluate_prior_density_gamma_scale (p : prior_type ℝ) (value : ℝ)
    (hname : p.name = "gamma") (_hv : 0 < value) (_h1 : 0 < p.par1) (_h2 : 0 < p.par2) :
    (∀ (T : TMB ℝ) (l : Bool),
      evaluate_prior_density T p value l = .ok (T.dgamma value p.par1 p.par2 l)) ∧
    evaluate_prior_density tmb p value true
      = .ok (-lgamma p.par1 + (p.par1 - 1) * Real.log value - value / p.par2
          - p.par1 * Real.log p.par2) ∧
    evaluate_prior_density tmb ⟨"gamma", 1, 2⟩ 1 true
      ≠ .ok (-lgamma 1 + (1 - 1) * Real.log 1 - 1 * 2 + 1 * Real.log 2) := by
  refine ⟨fun T l => by simp [evaluate_prior_density, hname], ?_, ?_⟩
  · simp [evaluate_prior_density, hname, tmb, dgamma]
  · rw [evaluate_prior_density_gamma]
    simp only [tmb, dgamma, if_true]
    intro h
    have h' := Except.ok.inj h
    have := log_two_lt
    rw [Real.log_one] at h'
    linarith

/-- C15 at the prior gamma(2, 3) and the point 4. -/
theorem evaluate_prior_density_gamma_scale_witness :
    evaluate_prior_density tmb ⟨"gamma", 2, 3⟩ 4 true
      = .ok (-lgamma 2 + (2 - 1) * Real.log 4 - 4 / 3 - 2 * Real.log 3) :=
  (evaluate_prior_density_gamma_scale ⟨"gamma", 2, 3⟩ 4 rfl (by norm_num) (by norm_num)
    (by norm_num)).2.1

theorem estimates_shift {α : Type} [CommRing α] (x_i : List α) (group_i : List Int)
    (alpha beta c : α) (group_res : List α) (hxg : x_i.length = group_i.length)
    (hidx : ∀ i ∈ group_i, 0 ≤ i ∧ i < (group_res.length : Int)) (k : Nat)
    (hk : k < x_i.length) :
    alpha + c + beta * x_i.getD k 0
        + (group_res.map (fun u => u - c)).getD (group_i.getD k 0).toNat 0
      = alpha + beta * x_i.getD k 0 + group_res.getD (group_i.getD k 0).toNat 0 := by
  have hmem := hidx _ (getD_index_mem group_i k (hxg ▸ hk))
  rw [getD_map_sub group_res c _ (by omega)]
  ring


theorem estimates_list_shift {α : Type} [CommRing α] (x_i : List α) (group_i : List Int)
    (alpha beta c : α) (group_res : List α) (hxg : x_i.length = group_i.length)
    (hidx : ∀ i ∈ group_i, 0 ≤ i ∧ i < (group_res.length : Int)) :
    List.zipWith (fun u v => u + v)
        ((x_i.map (fun xk => beta * xk)).map (fun t => alpha + c + t))
        (group_i.map (fun i => (group_res.map (fun u => u - c)).getD i.toNat 0))
      = List.zipWith (fun u v => u + v)
        ((x_i.map (fun xk => beta * xk)).map (fun t => alpha + t))
        (group_i.map (fun i => group_res.getD i.toNat 0)) := by
  apply List.ext_getElem (by simp)
  intro k h1 h2
  have hk : k < x_i.length := by simp at h1; omega
  rw [← List.getD_eq_getElem _ 0 h1, ← List.getD_eq_getElem _ 0 h2,
    estimates_getD x_i group_i (alpha + c) beta _ hxg k hk,
    estimates_getD x_i group_i alpha beta _ hxg k hk]
  exact estimates_shift x_i group_i alpha beta c group_res hxg hidx k hk

/-- C16: on well-formed input, replacing `alpha` by `alpha + c` and every
`group_res[j]` by `group_res[j] - c` leaves the vector `estimates` of linear
predictors, hence the observation-likelihood term, unchanged; the JNLL changes
by the change of the `alpha` prior term plus the change of the random-effect
penalty term. -/
theorem objective_function_shift_intercept {α : Type} [CommRing α] (T : TMB α)
    (y_i x_i : List α) (group_i : List Int)
    (prior_alpha prior_beta prior_sigma_group prior_sigma_error : prior_type α)
    (alpha beta log_sigma_group log_sigma_error c : α) (group_res : List α)
    (hyx : y_i.length = x_i.length) (hxg : x_i.length = group_i.length)
    (hidx : ∀ i ∈ group_i, 0 ≤ i ∧ i < (group_res.length : Int))
    (ha : supported prior_alpha.name) (hb : supported prior_beta.name)
    (hg : supported prior_sigma_group.name) (he : supported prior_sigma_error.name) :
    (∃ looked_up looked_up' estimates,
      vector_index group_res group_i = .ok looked_up ∧
      vector_index (group_res.map (fun u => u - c)) group_i = .ok looked_up' ∧
      array_add ((x_i.map (fun xk => beta * xk)).map (fun t => alpha + t)) looked_up
        = .ok estimates ∧
      array_add ((x_i.map (fun xk => beta * xk)).map (fun t => alpha + c + t)) looked_up'
        = .ok estimates) ∧
    ∃ la la' jnll jnll' : α,
      evaluate_prior_density T prior_alpha alpha true = .ok la ∧
      evaluate_prior_density T prior_alpha (alpha + c) true = .ok la' ∧
      objective_function T y_i x_i group_i prior_alpha prior_beta prior_sigma_group
        prior_sigma_error alpha beta log_sigma_group log_sigma_error group_res = .ok jnll ∧
      objective_function T y_i x_i group_i prior_alpha prior_beta prior_sigma_group
        prior_sigma_error (alpha + c) beta log_sigma_group log_sigma_error
        (group_res.map (fun u => u - c)) = .ok jnll' ∧
      jnll' - jnll = (-la' - -la)
        + (-(dnorm_vec T (group_res.map (fun u => u - c)) 0 (T.exp log_sigma_group) true).sum
          - -(dnorm_vec T group_res 0 (T.exp log_sigma_group) true).sum) := by
  have hidx' : ∀ i ∈ group_i, 0 ≤ i ∧ i < ((group_res.map (fun u => u - c)).length : Int) := by
    simpa using hidx
  obtain ⟨la, hla⟩ := evaluate_prior_density_supported T prior_alpha alpha true ha
  obtain ⟨la', hla'⟩ := evaluate_prior_density_supported T prior_alpha (alpha + c) true ha
  obtain ⟨lb, hlb⟩ := evaluate_prior_density_supported T prior_beta beta true hb
  obtain ⟨lg, hlg⟩ :=
    evaluate_prior_density_supported T prior_sigma_group (T.exp log_sigma_group) true hg
  obtain ⟨le, hle⟩ :=
    evaluate_prior_density_supported T prior_sigma_error (T.exp log_sigma_error) true he
  refine ⟨⟨_, _, _, vector_index_ok group_res 0 group_i hidx,
    vector_index_ok _ 0 group_i hidx', estimates_ok x_i group_i alpha beta group_res hxg, ?_⟩,
    ⟨la, la', _, _, hla, hla',
      objective_function_of_priors T y_i x_i group_i _ _ _ _ alpha beta log_sigma_group
        log_sigma_error group_res la lb lg le hyx hxg hidx hla hlb hlg hle,
      objective_function_of_priors T y_i x_i group_i _ _ _ _ (alpha + c) beta log_sigma_group
        log_sigma_error _ la' lb lg le hyx hxg hidx' hla' hlb hlg hle, ?_⟩⟩
  · rw [estimates_ok x_i group_i (alpha + c) beta _ hxg,
      estimates_list_shift x_i group_i alpha beta c group_res hxg hidx]
  · have hL : ∑ k ∈ Finset.range y_i.length,
          T.dnorm (y_i.getD k 0)
            (alpha + c + beta * x_i.getD k 0
              + (group_res.map (fun u => u - c)).getD (group_i.getD k 0).toNat 0)
            (T.exp log_sigma_error) true
        = ∑ k ∈ Finset.range y_i.length,
          T.dnorm (y_i.getD k 0)
            (alpha + beta * x_i.getD k 0 + group_res.getD (group_i.getD k 0).toNat 0)
            (T.exp log_sigma_error) true := by
      refine Finset.sum_congr rfl (fun k hk => ?_)
      rw [estimates_shift x_i group_i alpha beta c group_res hxg hidx k
        (hyx ▸ Finset.mem_range.mp hk)]
    rw [hL]
    simp only [dnorm_vec]
    rw [sum_map_getD (group_res.map (fun u => u - c)) _ 0, sum_map_getD group_res _ 0]
    ring

/-- C16 at two observations in two groups, shifting by `c = 1`: both
evaluations return and differ by the change of the two terms. -/
theorem objective_function_shift_intercept_witness :
    ∃ la la' jnll jnll' : ℝ,
      evaluate_prior_density tmb ⟨"gaussian", 0, 1⟩ (1 / 2) true = .ok la ∧
      evaluate_prior_density tmb ⟨"gaussian", 0, 1⟩ (1 / 2 + 1) true = .ok la' ∧
      objective_function tmb [1, 2] [3, 4] [1, 0]
        ⟨"gaussian", 0, 1⟩ ⟨"gamma", 2, 1⟩ ⟨"beta", 2, 2⟩ ⟨"gaussian", 0, 5⟩
        (1 / 2) 2 0 0 [3, -3] = .ok jnll ∧
      objective_function tmb [1, 2] [3, 4] [1, 0]
        ⟨"gaussian", 0, 1⟩ ⟨"gamma", 2, 1⟩ ⟨"beta", 2, 2⟩ ⟨"gaussian", 0, 5⟩
        (1 / 2 + 1) 2 0 0 ([3, -3].map (fun u => u - 1)) = .ok jnll' ∧
      jnll' - jnll = (-la' - -la)
        + (-(dnorm_vec tmb ([3, -3].map (fun u => u - 1)) 0 (tmb.exp 0) true).sum
          - -(dnorm_vec tmb [3, -3] 0 (tmb.exp 0) true).sum) :=
  (objective_function_shift_intercept tmb [1, 2] [3, 4] [1, 0]
    ⟨"gaussian", 0, 1⟩ ⟨"gamma", 2, 1⟩ ⟨"beta", 2, 2⟩ ⟨"gaussian", 0, 5⟩
    (1 / 2) 2 0 0 1 [3, -3] rfl rfl (by decide) (by decide) (by decide) (by decide)
    (by decide)).2


/-! ## Lemmas on reordering, relabelling and single effects -/

theorem getD_ofFn {β : Type} {n : Nat} (f : Fin n → β) (d : β) (k : Fin n) :
    (List.ofFn f).getD k.val d = f k := by
  rw [List.getD_eq_getElem _ _ (by simp)]
  simp

theorem getD_fin {β : Type} (l : List β) (d : β) (k : Fin l.length) :
    l.getD k.val d = l.get k := by
  rw [List.getD_eq_getElem _ _ k.isLt]
  rfl

theorem sum_range_length {α β : Type} [AddCommMonoid α] (l : List β) (F : β → α) (d : β) :
    ∑ j ∈ Finset.range l.length, F (l.getD j d) = ∑ j : Fin l.length, F (l.get j) := by
  rw [Finset.sum_range (fun j => F (l.getD j d))]
  exact Finset.sum_congr rfl (fun j _ => by rw [getD_fin])

theorem relabel_perm {β : Type} (l : List β) (q : Equiv.Perm (Fin l.length)) :
    (List.ofFn (fun j => l.get (q.symm j))).Perm l := by
  have h := Equiv.Perm.ofFn_comp_perm q.symm l.get
  rwa [List.ofFn_get] at h

theorem sum_range_relabel {α β : Type} [AddCommMonoid α] (l : List β) (F : β → α) (d : β)
    (q : Equiv.Perm (Fin l.length)) :
    ∑ j ∈ Finset.range (List.ofFn (fun j => l.get (q.symm j))).length,
        F ((List.ofFn (fun j => l.get (q.symm j))).getD j d)
      = ∑ j ∈ Finset.range l.length, F (l.getD j d) := by
  rw [← sum_map_getD, ← sum_map_getD]
  exact ((relabel_perm l q).map F).sum_eq

theorem sum_range_reorder {α : Type} [AddCommMonoid α] (n : Nat) (p : Equiv.Perm (Fin n))
    (F : Nat → α) :
    ∑ k : Fin n, F (p k).val = ∑ k ∈ Finset.range n, F k := by
  rw [Finset.sum_range F]
  exact Equiv.sum_comp p (fun k => F k.val)

/-- C12: on well-formed input, reordering the three observation vectors
jointly by a permutation `p` of the `N` positions (entry `k` of each reordered
vector is entry `p k` of the original) leaves the JNLL unchanged: both
evaluations return the same value. -/
theorem objective_function_reorder {α : Type} [CommRing α] (T : TMB α)
    (y_i x_i : List α) (group_i : List Int)
    (prior_alpha prior_beta prior_sigma_group prior_sigma_error : prior_type α)
    (alpha beta log_sigma_group log_sigma_error : α) (group_res : List α)
    (p : Equiv.Perm (Fin y_i.length))
    (hyx : y_i.length = x_i.length) (hxg : x_i.length = group_i.length)
    (hidx : ∀ i ∈ group_i, 0 ≤ i ∧ i < (group_res.length : Int))
    (ha : supported prior_alpha.name) (hb : supported prior_beta.name)
    (hg : supported prior_sigma_group.name) (he : supported prior_sigma_error.name) :
    ∃ jnll,
      objective_function T y_i x_i group_i prior_alpha prior_beta prior_sigma_group
        prior_sigma_error alpha beta log_sigma_group log_sigma_error group_res = .ok jnll ∧
      objective_function T
        (List.ofFn (fun k => y_i.getD (p k).val 0))
        (List.ofFn (fun k => x_i.getD (p k).val 0))
        (List.ofFn (fun k => group_i.getD (p k).val 0))
        prior_alpha prior_beta prior_sigma_group
        prior_sigma_error alpha beta log_sigma_group log_sigma_error group_res = .ok jnll := by
  obtain ⟨la, hla⟩ := evaluate_prior_density_supported T prior_alpha alpha true ha
  obtain ⟨lb, hlb⟩ := evaluate_prior_density_supported T prior_beta beta true hb
  obtain ⟨lg, hlg⟩ :=
    evaluate_prior_density_supported T prior_sigma_group (T.exp log_sigma_group) true hg
  obtain ⟨le, hle⟩ :=
    evaluate_prior_density_supported T prior_sigma_error (T.exp log_sigma_error) true he
  have hidx' : ∀ i ∈ List.ofFn (fun k => group_i.getD (p k).val 0),
      0 ≤ i ∧ i < (group_res.length : Int) := by
    intro i hi
    rw [List.mem_ofFn] at hi
    obtain ⟨k, rfl⟩ := hi
    exact hidx _ (getD_index_mem group_i _ (by have := (p k).isLt; omega))
  refine ⟨_, objective_function_of_priors T y_i x_i group_i _ _ _ _ alpha beta log_sigma_group
      log_sigma_error group_res la lb lg le hyx hxg hidx hla hlb hlg hle, ?_⟩
  rw [objective_function_of_priors T _ _ _ _ _ _ _ alpha beta log_sigma_group
      log_sigma_error group_res la lb lg le (by simp) (by simp) hidx' hla hlb hlg hle]
  congr 3
  rw [List.length_ofFn, Finset.sum_range]
  simp only [getD_ofFn]
  exact sum_range_reorder y_i.length p (fun k => T.dnorm (y_i.getD k 0)
    (alpha + beta * x_i.getD k 0 + group_res.getD (group_i.getD k 0).toNat 0)
    (T.exp log_sigma_error) true)


theorem relabel_lookup {α : Type} [Zero α] (group_res : List α)
    (group : List (Fin group_res.length)) (q : Equiv.Perm (Fin group_res.length))
    (k : Nat) (hk : k < group.length) :
    (List.ofFn (fun j => group_res.get (q.symm j))).getD
        ((group.map (fun i => ((q i).val : Int))).getD k 0).toNat 0
      = group_res.getD ((group.map (fun i => (i.val : Int))).getD k 0).toNat 0 := by
  have h1 : (group.map (fun i => ((q i).val : Int))).getD k 0 = ((q group[k]).val : Int) := by
    rw [List.getD_eq_getElem _ _ (by simpa using hk)]
    simp
  have h2 : (group.map (fun i => (i.val : Int))).getD k 0 = ((group[k]).val : Int) := by
    rw [List.getD_eq_getElem _ _ (by simpa using hk)]
    simp
  rw [h1, h2, Int.toNat_ofNat, Int.toNat_ofNat, getD_ofFn, getD_fin]
  simp

/-- C17: the JNLL is invariant to relabelling the groups.  With the group of
each observation given as a position of `group_res` and `q` a permutation of
these positions, moving every random effect from position `j` to `q j` and
replacing every group index `i` by `q i` returns the same JNLL. -/
theorem objective_function_relabel_groups {α : Type} [CommRing α] (T : TMB α)
    (y_i x_i : List α)
    (prior_alpha prior_beta prior_sigma_group prior_sigma_error : prior_type α)
    (alpha beta log_sigma_group log_sigma_error : α) (group_res : List α)
    (group : List (Fin group_res.length)) (q : Equiv.Perm (Fin group_res.length))
    (hyx : y_i.length = x_i.length) (hxg : x_i.length = group.length)
    (ha : supported prior_alpha.name) (hb : supported prior_beta.name)
    (hg : supported prior_sigma_group.name) (he : supported prior_sigma_error.name) :
    ∃ jnll,
      objective_function T y_i x_i (group.map (fun i => (i.val : Int)))
        prior_alpha prior_beta prior_sigma_group prior_sigma_error
        alpha beta log_sigma_group log_sigma_error group_res = .ok jnll ∧
      objective_function T y_i x_i (group.map (fun i => ((q i).val : Int)))
        prior_alpha prior_beta prior_sigma_group prior_sigma_error
        alpha beta log_sigma_group log_sigma_error
        (List.ofFn (fun j => group_res.get (q.symm j))) = .ok jnll := by
  obtain ⟨la, hla⟩ := evaluate_prior_density_supported T prior_alpha alpha true ha
  obtain ⟨lb, hlb⟩ := evaluate_prior_density_supported T prior_beta beta true hb
  obtain ⟨lg, hlg⟩ :=
    evaluate_prior_density_supported T prior_sigma_group (T.exp log_sigma_group) true hg
  obtain ⟨le, hle⟩ :=
    evaluate_prior_density_supported T prior_sigma_error (T.exp log_sigma_error) true he
  have hidx : ∀ i ∈ group.map (fun i => (i.val : Int)),
      0 ≤ i ∧ i < (group_res.length : Int) := by
    intro i hi
    obtain ⟨j, _, rfl⟩ := List.mem_map.mp hi
    exact ⟨by positivity, by exact_mod_cast j.isLt⟩
  have hidx' : ∀ i ∈ group.map (fun i => ((q i).val : Int)),
      0 ≤ i ∧ i < ((List.ofFn (fun j => group_res.get (q.symm j))).length : Int) := by
    intro i hi
    obtain ⟨j, _, rfl⟩ := List.mem_map.mp hi
    exact ⟨by positivity, by rw [List.length_ofFn]; exact_mod_cast (q j).isLt⟩
  refine ⟨_, objective_function_of_priors T y_i x_i _ _ _ _ _ alpha beta log_sigma_group
      log_sigma_error group_res la lb lg le hyx (by simpa using hxg) hidx hla hlb hlg hle, ?_⟩
  rw [objective_function_of_priors T y_i x_i _ _ _ _ _ alpha beta log_sigma_group
      log_sigma_error _ la lb lg le hyx (by simpa using hxg) hidx' hla hlb hlg hle,
    sum_range_relabel group_res (fun u => T.dnorm u 0 (T.exp log_sigma_group) true) 0 q]
  congr 3
  refine Finset.sum_congr rfl (fun k hk => ?_)
  rw [relabel_lookup group_res group q k (by have := Finset.mem_range.mp hk; omega)]


theorem penalty_two_groups (u1 u2 s : ℝ) :
    -(dnorm_vec tmb [u1, u2] 0 (tmb.exp s) true).sum
      = 2 * Real.log (Real.sqrt (2 * Real.pi)) + 2 * s
        + ((u1 ^ 2 + u2 ^ 2) / 2) / Real.exp s ^ 2 := by
  have he : Real.exp s ≠ 0 := (Real.exp_pos s).ne'
  simp only [dnorm_vec, tmb, dnorm, if_true, List.map_cons, List.map_nil, List.sum_cons,
    List.sum_nil, Real.log_exp]
  field_simp
  ring

theorem exp_sq_ratio (s1 s2 : ℝ) :
    Real.exp s2 ^ 2 = Real.exp s1 ^ 2 * Real.exp (2 * (s2 - s1)) := by
  rw [← Real.exp_nat_mul, ← Real.exp_nat_mul, ← Real.exp_add]
  congr 1
  push_cast
  ring

theorem penalty_decreasing_region (A s1 s2 : ℝ) (h : s1 < s2)
    (hA : Real.exp s2 ^ 2 ≤ A) :
    2 * s2 + A / Real.exp s2 ^ 2 < 2 * s1 + A / Real.exp s1 ^ 2 := by
  have ha : 0 < Real.exp s1 ^ 2 := by positivity
  have hb : 0 < Real.exp s2 ^ 2 := by positivity
  have hE : 2 * (s2 - s1) + 1 < Real.exp (2 * (s2 - s1)) :=
    Real.add_one_lt_exp (by intro h0; linarith)
  have hw : 1 ≤ A / Real.exp s2 ^ 2 := (one_le_div hb).mpr hA
  have hrel : A / Real.exp s1 ^ 2 = A / Real.exp s2 ^ 2 * Real.exp (2 * (s2 - s1)) := by
    rw [exp_sq_ratio s1 s2]
    field_simp
    ring
  rw [hrel]
  nlinarith

theorem penalty_increasing_region (A s1 s2 : ℝ) (h : s1 < s2) (hA0 : 0 ≤ A)
    (hA : A ≤ Real.exp s1 ^ 2) :
    2 * s1 + A / Real.exp s1 ^ 2 < 2 * s2 + A / Real.exp s2 ^ 2 := by
  have ha : 0 < Real.exp s1 ^ 2 := by positivity
  have hE : 2 * (s1 - s2) + 1 < Real.exp (2 * (s1 - s2)) :=
    Real.add_one_lt_exp (by intro h0; linarith)
  have hEpos : 0 < Real.exp (2 * (s1 - s2)) := Real.exp_pos _
  have hE1 : Real.exp (2 * (s1 - s2)) < 1 := by
    rw [← Real.exp_zero]
    exact Real.exp_lt_exp.mpr (by linarith)
  have hw : A / Real.exp s1 ^ 2 ≤ 1 := (div_le_one ha).mpr hA
  have hw0 : 0 ≤ A / Real.exp s1 ^ 2 := div_nonneg hA0 ha.le
  have hrel : A / Real.exp s2 ^ 2 = A / Real.exp s1 ^ 2 * Real.exp (2 * (s1 - s2)) := by
    rw [exp_sq_ratio s2 s1]
    field_simp
    ring
  rw [hrel]
  nlinarith


/-- C11 fails on the code: for `group_res = [1, 1]` the penalty term is positive
at `log_sigma_group = 0` and strictly larger at `log_sigma_group = 1`, so its
magnitude did not decrease when `sigma_group` increased. -/
theorem penalty_larger_at_larger_scale :
    0 < -(dnorm_vec tmb [1, 1] 0 (tmb.exp 0) true).sum ∧
    -(dnorm_vec tmb [1, 1] 0 (tmb.exp 0) true).sum
      < -(dnorm_vec tmb [1, 1] 0 (tmb.exp 1) true).sum ∧
    ¬ (|-(dnorm_vec tmb [1, 1] 0 (tmb.exp 1) true).sum|
      < |-(dnorm_vec tmb [1, 1] 0 (tmb.exp 0) true).sum|) := by
  have hc := log_sqrt_two_pi_pos
  have hinc := penalty_increasing_region ((1 ^ 2 + 1 ^ 2) / 2) 0 1 (by norm_num) (by norm_num)
    (by simp)
  have h0 : 0 < -(dnorm_vec tmb [1, 1] 0 (tmb.exp 0) true).sum := by
    rw [penalty_two_groups]
    have : (0 : ℝ) < ((1 ^ 2 + 1 ^ 2) / 2) / Real.exp 0 ^ 2 := by positivity
    linarith
  have h1 : -(dnorm_vec tmb [1, 1] 0 (tmb.exp 0) true).sum
      < -(dnorm_vec tmb [1, 1] 0 (tmb.exp 1) true).sum := by
    rw [penalty_two_groups, penalty_two_groups]
    linarith
  refine ⟨h0, h1, ?_⟩
  rw [abs_of_pos h0, abs_of_pos (h0.trans h1)]
  exact not_lt.mpr h1.le

/-- C11 as amended: for `group_res` of two groups and `s1 < s2`, the penalty
term `-sum_j logNormal(group_res[j]; 0, exp(s))` is strictly smaller at `s2`
than at `s1` as long as `exp(s2)^2` does not exceed the mean square
`(u1^2 + u2^2)/2` of the effects (and then of smaller magnitude too when it is
nonnegative at `s2`); once `exp(s1)^2` is at least that mean square the penalty
is strictly larger at `s2`. -/
theorem penalty_monotone_regions (u1 u2 s1 s2 : ℝ) (h : s1 < s2) :
    (Real.exp s2 ^ 2 ≤ (u1 ^ 2 + u2 ^ 2) / 2 →
      -(dnorm_vec tmb [u1, u2] 0 (tmb.exp s2) true).sum
        < -(dnorm_vec tmb [u1, u2] 0 (tmb.exp s1) true).sum) ∧
    (Real.exp s2 ^ 2 ≤ (u1 ^ 2 + u2 ^ 2) / 2 →
      0 ≤ -(dnorm_vec tmb [u1, u2] 0 (tmb.exp s2) true).sum →
      |-(dnorm_vec tmb [u1, u2] 0 (tmb.exp s2) true).sum|
        < |-(dnorm_vec tmb [u1, u2] 0 (tmb.exp s1) true).sum|) ∧
    ((u1 ^ 2 + u2 ^ 2) / 2 ≤ Real.exp s1 ^ 2 →
      -(dnorm_vec tmb [u1, u2] 0 (tmb.exp s1) true).sum
        < -(dnorm_vec tmb [u1, u2] 0 (tmb.exp s2) true).sum) := by
  have hdec : Real.exp s2 ^ 2 ≤ (u1 ^ 2 + u2 ^ 2) / 2 →
      -(dnorm_vec tmb [u1, u2] 0 (tmb.exp s2) true).sum
        < -(dnorm_vec tmb [u1, u2] 0 (tmb.exp s1) true).sum := by
    intro hA
    rw [penalty_two_groups, penalty_two_groups]
    have := penalty_decreasing_region _ s1 s2 h hA
    linarith
  refine ⟨hdec, fun hA h0 => ?_, fun hA => ?_⟩
  · rw [abs_of_nonneg h0, abs_of_pos (lt_of_le_of_lt h0 (hdec hA))]
    exact hdec hA
  · rw [penalty_two_groups, penalty_two_groups]
    have := penalty_increasing_region _ s1 s2 h (by positivity) hA
    linarith

/-- C11 as amended, at `group_res = [2, 2]`, `s1 = -1`, `s2 = 0`. -/
theorem penalty_monotone_regions_witness :
    -(dnorm_vec tmb [2, 2] 0 (tmb.exp 0) true).sum
      < -(dnorm_vec tmb [2, 2] 0 (tmb.exp (-1)) true).sum :=
  (penalty_monotone_regions 2 2 (-1) 0 (by norm_num)).1 (by norm_num)


theorem getD_set_ne {β : Type} (l : List β) (j i : Nat) (a d : β) (h : j ≠ i) :
    (l.set j a).getD i d = l.getD i d := by
  simp [List.getElem?_set_ne h]

theorem getD_set_self {β : Type} (l : List β) (j : Nat) (a d : β) (h : j < l.length) :
    (l.set j a).getD j d = a := by
  simp [h]

theorem sum_range_set {α β : Type} [AddCommGroup α] (l : List β) (F : β → α) (d : β) (j : Nat)
    (a : β) (hj : j < l.length) :
    ∑ i ∈ Finset.range (l.set j a).length, F ((l.set j a).getD i d)
      = ∑ i ∈ Finset.range l.length, F (l.getD i d) + (F a - F (l.getD j d)) := by
  have hmem : j ∈ Finset.range l.length := Finset.mem_range.mpr hj
  rw [List.length_set, ← Finset.add_sum_erase _ _ hmem, ← Finset.add_sum_erase _ _ hmem,
    getD_set_self l j a d hj]
  have hrest : ∑ i ∈ (Finset.range l.length).erase j, F ((l.set j a).getD i d)
      = ∑ i ∈ (Finset.range l.length).erase j, F (l.getD i d) := by
    refine Finset.sum_congr rfl (fun i hi => ?_)
    rw [getD_set_ne l j i a d (Finset.ne_of_mem_erase hi).symm]
  rw [hrest]
  abel

theorem lookup_set_unused {α : Type} [Zero α] (group_res : List α) (group_i : List Int)
    (j : Nat) (a : α) (hunused : (j : Int) ∉ group_i)
    (i : Int) (hi : i ∈ group_i) (h0 : 0 ≤ i) :
    (group_res.set j a).getD i.toNat 0 = group_res.getD i.toNat 0 := by
  apply getD_set_ne
  intro h
  apply hunused
  have : (j : Int) = i := by omega
  rw [this]
  exact hi

theorem dnorm_diff (u u' sd : ℝ) (hsd : 0 < sd) :
    dnorm u' 0 sd true - dnorm u 0 sd true = -((u' ^ 2 - u ^ 2) / (2 * sd ^ 2)) := by
  simp only [dnorm, if_true]
  field_simp
  ring

/-- C18: on well-formed input, when no observation refers to position `j`,
replacing `group_res[j] = u` by `u'` leaves the looked-up effects (hence the
observation-likelihood term) unchanged and changes the JNLL by exactly
`(u'^2 - u^2) / (2 * exp(log_sigma_group)^2)`; the four prior terms do not read
`group_res`. -/
theorem objective_function_unused_effect (y_i x_i : List ℝ) (group_i : List Int)
    (prior_alpha prior_beta prior_sigma_group prior_sigma_error : prior_type ℝ)
    (alpha beta log_sigma_group log_sigma_error : ℝ) (group_res : List ℝ)
    (j : Nat) (u' : ℝ)
    (hyx : y_i.length = x_i.length) (hxg : x_i.length = group_i.length)
    (hidx : ∀ i ∈ group_i, 0 ≤ i ∧ i < (group_res.length : Int))
    (ha : supported prior_alpha.name) (hb : supported prior_beta.name)
    (hg : supported prior_sigma_group.name) (he : supported prior_sigma_error.name)
    (hj : j < group_res.length) (hunused : (j : Int) ∉ group_i) :
    (∃ looked_up, vector_index group_res group_i = .ok looked_up ∧
      vector_index (group_res.set j u') group_i = .ok looked_up) ∧
    ∃ jnll jnll' : ℝ,
      objective_function tmb y_i x_i group_i prior_alpha prior_beta prior_sigma_group
        prior_sigma_error alpha beta log_sigma_group log_sigma_error group_res = .ok jnll ∧
      objective_function tmb y_i x_i group_i prior_alpha prior_beta prior_sigma_group
        prior_sigma_error alpha beta log_sigma_group log_sigma_error (group_res.set j u')
        = .ok jnll' ∧
      jnll' - jnll
        = (u' ^ 2 - (group_res.getD j 0) ^ 2) / (2 * Real.exp log_sigma_group ^ 2) := by
  obtain ⟨la, hla⟩ := evaluate_prior_density_supported tmb prior_alpha alpha true ha
  obtain ⟨lb, hlb⟩ := evaluate_prior_density_supported tmb prior_beta beta true hb
  obtain ⟨lg, hlg⟩ :=
    evaluate_prior_density_supported tmb prior_sigma_group (tmb.exp log_sigma_group) true hg
  obtain ⟨le, hle⟩ :=
    evaluate_prior_density_supported tmb prior_sigma_error (tmb.exp log_sigma_error) true he
  have hidx' : ∀ i ∈ group_i, 0 ≤ i ∧ i < ((group_res.set j u').length : Int) := by
    simpa using hidx
  have hlook : group_i.map (fun i => (group_res.set j u').getD i.toNat 0)
      = group_i.map (fun i => group_res.getD i.toNat 0) :=
    List.map_congr_left (fun i hi =>
      lookup_set_unused group_res group_i j u' hunused i hi (hidx i hi).1)
  refine ⟨⟨_, vector_index_ok group_res 0 group_i hidx, ?_⟩,
    ⟨_, _, objective_function_of_priors tmb y_i x_i group_i _ _ _ _ alpha beta
        log_sigma_group log_sigma_error group_res la lb lg le hyx hxg hidx hla hlb hlg hle,
      objective_function_of_priors tmb y_i x_i group_i _ _ _ _ alpha beta
        log_sigma_group log_sigma_error _ la lb lg le hyx hxg hidx' hla hlb hlg hle, ?_⟩⟩
  · rw [vector_index_ok _ 0 group_i hidx', hlook]
  · have hL : ∑ k ∈ Finset.range y_i.length,
          tmb.dnorm (y_i.getD k 0)
            (alpha + beta * x_i.getD k 0
              + (group_res.set j u').getD (group_i.getD k 0).toNat 0)
            (tmb.exp log_sigma_error) true
        = ∑ k ∈ Finset.range y_i.length,
          tmb.dnorm (y_i.getD k 0)
            (alpha + beta * x_i.getD k 0 + group_res.getD (group_i.getD k 0).toNat 0)
            (tmb.exp log_sigma_error) true := by
      refine Finset.sum_congr rfl (fun k hk => ?_)
      have hmem := getD_index_mem group_i k (by have := Finset.mem_range.mp hk; omega)
      rw [lookup_set_unused group_res group_i j u' hunused _ hmem (hidx _ hmem).1]
    rw [hL, sum_range_set group_res (fun u => tmb.dnorm u 0 (tmb.exp log_sigma_group) true) 0 j
      u' hj]
    have hd := dnorm_diff (group_res.getD j 0) u' (Real.exp log_sigma_group) (Real.exp_pos _)
    simp only [tmb] at hd ⊢
    linarith


/-- C12 at two observations, swapped. -/
theorem objective_function_reorder_witness :
    ∃ jnll : ℝ,
      objective_function tmb [1, 2] [3, 4] [1, 0]
        ⟨"gaussian", 0, 1⟩ ⟨"gamma", 2, 1⟩ ⟨"beta", 2, 2⟩ ⟨"gaussian", 0, 5⟩
        (1 / 2) 2 0 0 [3, -3] = .ok jnll ∧
      objective_function tmb [2, 1] [4, 3] [0, 1]
        ⟨"gaussian", 0, 1⟩ ⟨"gamma", 2, 1⟩ ⟨"beta", 2, 2⟩ ⟨"gaussian", 0, 5⟩
        (1 / 2) 2 0 0 [3, -3] = .ok jnll := by
  have h := objective_function_reorder tmb [1, 2] [3, 4] [1, 0]
    ⟨"gaussian", 0, 1⟩ ⟨"gamma", 2, 1⟩ ⟨"beta", 2, 2⟩ ⟨"gaussian", 0, 5⟩
    (1 / 2) 2 0 0 [3, -3] (Equiv.swap ⟨0, by decide⟩ ⟨1, by decide⟩) rfl rfl (by decide)
    (by decide) (by decide) (by decide) (by decide)
  simpa [List.ofFn_succ, Equiv.swap_apply_def] using h

/-- C17 at two groups, swapped. -/
theorem objective_function_relabel_groups_witness :
    ∃ jnll : ℝ,
      objective_function tmb [1, 2] [3, 4] [1, 0]
        ⟨"gaussian", 0, 1⟩ ⟨"gamma", 2, 1⟩ ⟨"beta", 2, 2⟩ ⟨"gaussian", 0, 5⟩
        (1 / 2) 2 0 0 [3, -3] = .ok jnll ∧
      objective_function tmb [1, 2] [3, 4] [0, 1]
        ⟨"gaussian", 0, 1⟩ ⟨"gamma", 2, 1⟩ ⟨"beta", 2, 2⟩ ⟨"gaussian", 0, 5⟩
        (1 / 2) 2 0 0 [-3, 3] = .ok jnll := by
  have h := objective_function_relabel_groups tmb [1, 2] [3, 4]
    ⟨"gaussian", 0, 1⟩ ⟨"gamma", 2, 1⟩ ⟨"beta", 2, 2⟩ ⟨"gaussian", 0, 5⟩
    (1 / 2) 2 0 0 [3, -3] [⟨1, by decide⟩, ⟨0, by decide⟩]
    (Equiv.swap ⟨0, by decide⟩ ⟨1, by decide⟩) rfl rfl
    (by decide) (by decide) (by decide) (by decide)
  simpa [List.ofFn_succ, Equiv.swap_apply_def] using h

/-- C18 at two groups of which the second is unused, its effect changed from
-3 to 7. -/
theorem objective_function_unused_effect_witness :
    ∃ jnll jnll' : ℝ,
      objective_function tmb [1, 2] [3, 4] [0, 0]
        ⟨"gaussian", 0, 1⟩ ⟨"gamma", 2, 1⟩ ⟨"beta", 2, 2⟩ ⟨"gaussian", 0, 5⟩
        (1 / 2) 2 0 0 [3, -3] = .ok jnll ∧
      objective_function tmb [1, 2] [3, 4] [0, 0]
        ⟨"gaussian", 0, 1⟩ ⟨"gamma", 2, 1⟩ ⟨"beta", 2, 2⟩ ⟨"gaussian", 0, 5⟩
        (1 / 2) 2 0 0 [3, 7] = .ok jnll' ∧
      jnll' - jnll = (7 ^ 2 - (-3) ^ 2) / (2 * Real.exp 0 ^ 2) := by
  have h := (objective_function_unused_effect [1, 2] [3, 4] [0, 0]
    ⟨"gaussian", 0, 1⟩ ⟨"gamma", 2, 1⟩ ⟨"beta", 2, 2⟩ ⟨"gaussian", 0, 5⟩
    (1 / 2) 2 0 0 [3, -3] 1 7 rfl rfl (by decide) (by decide) (by decide) (by decide)
    (by decide) (by decide) (by decide)).2
  simpa using h


end RandomInterceptModel
